import Mathlib

/-!
Verification of the log-ingestion pipeline: a shallow embedding of the
batch uploader (`src/scripts/bulk-insert.ts`), the record source
(`src/scripts/generate-logs.ts`), the metrics collector
(`log-metrics-collector.ts`) and the progress tracker
(`progress-tracker.ts`), with theorems checking the specification's
claims against these definitions.

Modelling conventions: JavaScript numbers are modelled as `Int` where the
code does counting arithmetic and as `ℚ` where it does division or keeps
durations; the `Number.POSITIVE_INFINITY` / `NEGATIVE_INFINITY` sentinels
of the metrics collector are modelled as `none : Option ℚ` (so
`Math.min(+inf, x) = x` becomes `jsMinOpt none x = some x`); strings are
modelled as `List Char` where line structure matters.  Records flowing
through the pipeline are an abstract type `R`.
-/

namespace LogPipeline

/-! Section: Bulk uploader data model (`bulk-insert.ts`) -/

/-- The typed error carried by one item of a bulk response
(`item.index.error` with its `type` and `reason` fields). -/
structure BulkError where
  type : String
  reason : String
deriving DecidableEq

/-- One item of the bulk response body: `item.index.error` is either absent
(the document was acknowledged) or a typed error. -/
structure BulkItem where
  error : Option BulkError
deriving DecidableEq

/-- The bulk response body: the overall `errors` flag and the per-item
results (`response.body.errors`, `response.body.items`). -/
structure BulkResponse where
  errors : Bool
  items : List BulkItem
deriving DecidableEq

/-- The cumulative metrics record of `BulkInsertTransform` (the
`this.metrics` object initialised at lines 34-41 of `bulk-insert.ts`). -/
structure BulkMetricsState where
  batches : Nat
  totalInserted : Int
  failedDocuments : Int
  totalDurationMs : ℚ
  averageBatchDurationMs : ℚ
  maxBatchDurationMs : ℚ
deriving DecidableEq

/-- The zero-initialised metrics object. -/
def initialBulkMetrics : BulkMetricsState :=
  { batches := 0, totalInserted := 0, failedDocuments := 0,
    totalDurationMs := 0, averageBatchDurationMs := 0, maxBatchDurationMs := 0 }

/-- The categories of the error sink (`ErrorLogger.logInsertionError`,
`logStreamError`, `logConnectionError`, `logSerializationError`). -/
inductive ErrorCategory where
  | insertion
  | stream
  | connection
  | serialization
  | unknown
deriving DecidableEq

/-- A progress event pushed downstream after a batch settles:
`this.push({ inserted: successfulDocuments, total: this.totalInserted })`. -/
structure ProgressEvent where
  inserted : Int
  total : Int
deriving DecidableEq

/-- The mutable state of one `BulkInsertTransform` instance that the
`sendBatch` / `scheduleFlush` / `_flush` paths touch: the metrics record,
the class-level `totalInserted`, the categories logged to the error sink,
the latched `flushError`, the progress events pushed so far and the
running `batchIndex`. -/
structure SendState (R : Type) where
  metrics : BulkMetricsState
  totalInserted : Int
  errorLog : List ErrorCategory
  flushError : Option String
  pushed : List ProgressEvent
  batchIndex : Nat
deriving DecidableEq

/-- A fresh transform instance's state. -/
def initialSendState (R : Type) : SendState R :=
  { metrics := initialBulkMetrics, totalInserted := 0, errorLog := [],
    flushError := none, pushed := [], batchIndex := 0 }

/-- From `bulk-insert.ts` lines 163-165: the failed items of a bulk response —
when the overall `errors` flag is set, the items carrying an
`item.index.error`; otherwise the empty list. -/
def bulkErrorItems (resp : BulkResponse) : List BulkItem :=
  if resp.errors then resp.items.filter (fun it => it.error.isSome) else []

/-- Model of `sendBatch` on the path where the asynchronous bulk call returns a
response (`bulk-insert.ts` lines 153-221): counts the failed items,
credits `successfulDocuments = batch.length - errors.length`, updates the
metrics record, logs one insertion-category entry per failed item, and
pushes a progress event with the new cumulative total.  `dur` is the
measured batch duration (`Date.now() - start`). -/
def sendBatchOk {R : Type} (batch : List R) (resp : BulkResponse) (dur : ℚ)
    (st : SendState R) : SendState R :=
  let errs := bulkErrorItems resp
  let successfulDocuments : Int := (batch.length : Int) - (errs.length : Int)
  let m := st.metrics
  let m1 : BulkMetricsState :=
    { m with
      batches := m.batches + 1
      totalInserted := m.totalInserted + successfulDocuments
      totalDurationMs := m.totalDurationMs + dur
      maxBatchDurationMs := max m.maxBatchDurationMs dur }
  let m2 : BulkMetricsState :=
    if 0 < errs.length then
      { m1 with failedDocuments := m1.failedDocuments + (errs.length : Int) }
    else m1
  let newTotal := st.totalInserted + successfulDocuments
  { st with
    metrics := m2
    totalInserted := newTotal
    errorLog := st.errorLog ++ errs.map (fun _ => ErrorCategory.insertion)
    pushed := st.pushed ++ [⟨successfulDocuments, newTotal⟩]
    batchIndex := st.batchIndex + 1 }

/-- Model of `sendBatch` on the path where the asynchronous bulk call itself throws
(`bulk-insert.ts` lines 222-231): a connection-category entry is logged and
the error is rethrown; no metric, no total and no progress event is
touched.  Only `batchIndex` (incremented on entry to `sendBatch`) moves. -/
def sendBatchFail {R : Type} (st : SendState R) : SendState R :=
  { st with
    errorLog := st.errorLog ++ [ErrorCategory.connection]
    batchIndex := st.batchIndex + 1 }

/-- One scheduled batch send with its outcome: either a bulk response with
a measured duration, or the send call throwing.  On a throw, the `.catch`
installed by `scheduleFlush` (lines 116-120) latches the error into
`this.flushError`. -/
def sendBatchResult {R : Type} (batch : List R)
    (result : Except String (BulkResponse × ℚ)) (st : SendState R) :
    SendState R :=
  match result with
  | .ok (resp, dur) => sendBatchOk batch resp dur st
  | .error e => { sendBatchFail st with flushError := some e }

/-- Model of `_flush` (lines 85-101): after awaiting the pending sends, the callback
receives the latched `flushError` if any; this is the run's failure
result. -/
def drainResult {R : Type} (st : SendState R) : Except String Unit :=
  match st.flushError with
  | some e => Except.error e
  | none => Except.ok ()

/-! Section: C1: per-batch accounting -/

/-- The conclusion of claim C1 at given arguments: `sendBatchOk` adds
`batch.length - errorCount` to `totalInserted` and `errorCount` to
`failedDocuments`, the credited success count is non-negative, and the two
deltas sum to the batch's size. -/
def BatchAccounting {R : Type} (st : SendState R) (batch : List R)
    (resp : BulkResponse) (dur : ℚ) : Prop :=
  (sendBatchOk batch resp dur st).metrics.totalInserted
      = st.metrics.totalInserted
        + ((batch.length : Int) - ((bulkErrorItems resp).length : Int))
    ∧ (sendBatchOk batch resp dur st).metrics.failedDocuments
      = st.metrics.failedDocuments + ((bulkErrorItems resp).length : Int)
    ∧ 0 ≤ (batch.length : Int) - ((bulkErrorItems resp).length : Int)
    ∧ ((sendBatchOk batch resp dur st).metrics.totalInserted
          - st.metrics.totalInserted)
        + ((sendBatchOk batch resp dur st).metrics.failedDocuments
          - st.metrics.failedDocuments)
      = (batch.length : Int)

/-- The update `sendBatchOk` adds `batch.length - errorCount` to the metrics'
`totalInserted`. -/
lemma sendBatchOk_metrics_totalInserted {R : Type} (st : SendState R)
    (batch : List R) (resp : BulkResponse) (dur : ℚ) :
    (sendBatchOk batch resp dur st).metrics.totalInserted
      = st.metrics.totalInserted
        + ((batch.length : Int) - ((bulkErrorItems resp).length : Int)) := by
  unfold sendBatchOk
  dsimp only
  split_ifs <;> rfl

/-- The update `sendBatchOk` adds the failed-item count to the metrics'
`failedDocuments` (the guard `if errors.length > 0` adds zero when it is
skipped). -/
lemma sendBatchOk_metrics_failedDocuments {R : Type} (st : SendState R)
    (batch : List R) (resp : BulkResponse) (dur : ℚ) :
    (sendBatchOk batch resp dur st).metrics.failedDocuments
      = st.metrics.failedDocuments + ((bulkErrorItems resp).length : Int) := by
  unfold sendBatchOk
  dsimp only
  split_ifs with h
  · rfl
  · simp only [not_lt, Nat.le_zero] at h
    simp [h]

/-- The failed-item count never exceeds the number of response items. -/
lemma bulkErrorItems_length_le (resp : BulkResponse) :
    (bulkErrorItems resp).length ≤ resp.items.length := by
  unfold bulkErrorItems
  split
  · exact List.length_filter_le _ _
  · simp

/-- C1: for every completed batch whose bulk response contains one result
item per submitted record, the records credited as inserted plus the
records counted as failed equal the batch's size: `sendBatch` computes
`successfulDocuments = batch.length - errors.length`, adds it to
`totalInserted` and adds `errors.length` to `failedDocuments`. -/
theorem sendBatch_accounting {R : Type} (st : SendState R) (batch : List R)
    (resp : BulkResponse) (dur : ℚ)
    (h : resp.items.length = batch.length) :
    BatchAccounting st batch resp dur := by
  have hle : (bulkErrorItems resp).length ≤ batch.length :=
    h ▸ bulkErrorItems_length_le resp
  have h1 := sendBatchOk_metrics_totalInserted st batch resp dur
  have h2 := sendBatchOk_metrics_failedDocuments st batch resp dur
  refine ⟨h1, h2, ?_, ?_⟩
  · omega
  · rw [h1, h2]
    ring

/-- A concrete transform state, batch and response used to witness the
accounting theorem: a two-record batch, a response with one failed item. -/
def exResp : BulkResponse :=
  { errors := true,
    items := [⟨none⟩, ⟨some ⟨"mapper_parsing_exception", "bad field"⟩⟩] }

/-- Witness for C1 at a concrete input. -/
theorem sendBatch_accounting_witness :
    BatchAccounting (initialSendState Nat) [1, 2] exResp 0 :=
  sendBatch_accounting (initialSendState Nat) [1, 2] exResp 0 (by decide)

/-! Section: C3: a throwing send call fails the whole batch -/

/-- C3: when the asynchronous bulk-send call itself throws, no record of
the batch is credited: the metrics record (in particular `totalInserted`
and the `batches` counter) is untouched, the class-level total and the
pushed progress events are untouched, a connection-category entry is
appended to the error sink, the error is latched as `flushError`, and
`_flush` (drain) reports that error as the run's failure result. -/
theorem sendBatch_throw_fails_batch {R : Type} (st : SendState R)
    (batch : List R) (e : String) :
    (sendBatchResult batch (Except.error e) st).metrics = st.metrics
    ∧ (sendBatchResult batch (Except.error e) st).totalInserted
      = st.totalInserted
    ∧ (sendBatchResult batch (Except.error e) st).pushed = st.pushed
    ∧ (sendBatchResult batch (Except.error e) st).errorLog
      = st.errorLog ++ [ErrorCategory.connection]
    ∧ (sendBatchResult batch (Except.error e) st).flushError = some e
    ∧ drainResult (sendBatchResult batch (Except.error e) st)
      = Except.error e :=
  ⟨rfl, rfl, rfl, rfl, rfl, rfl⟩

/-! Section: Batch formation (`_transform` / `_flush` / `scheduleFlush`) -/

/-- The buffering state of `BulkInsertTransform` seen by `_transform` and
`_flush`: the internal record buffer, the batches handed to
`scheduleFlush` so far (in dispatch order), and the latched
`flushError`. -/
structure UploaderBuffer (R : Type) where
  buffer : List R
  dispatched : List (List R)
  flushError : Option String
deriving DecidableEq

/-- A fresh transform's buffering state. -/
def initialUploaderBuffer (R : Type) : UploaderBuffer R :=
  { buffer := [], dispatched := [], flushError := none }

/-- Model of `scheduleFlush` (lines 113-126): an empty batch is dropped
(`if (batch.length === 0) return`), a non-empty one is dispatched. -/
def scheduleFlushBuf {R : Type} (st : UploaderBuffer R) (batch : List R) :
    UploaderBuffer R :=
  if batch.isEmpty then st
  else { st with dispatched := st.dispatched ++ [batch] }

/-- Model of `_transform` (lines 59-83): the chunk is pushed onto the buffer
unconditionally; if the buffer has reached `batchSize` it is cut as a
batch and handed to `scheduleFlush`, and — after waiting for a slot — the
callback receives the latched `flushError`; otherwise the callback
reports no error.  Returns the new state and the callback's error
argument. -/
def transformStep {R : Type} (batchSize : Nat) (st : UploaderBuffer R)
    (chunk : R) : UploaderBuffer R × Option String :=
  let buf := st.buffer ++ [chunk]
  if batchSize ≤ buf.length then
    (scheduleFlushBuf { st with buffer := [] } buf, st.flushError)
  else
    ({ st with buffer := buf }, none)

/-- Model of `_flush` (lines 85-101): a non-empty residual buffer is cut as a final
partial batch and handed to `scheduleFlush`. -/
def flushStep {R : Type} (st : UploaderBuffer R) : UploaderBuffer R :=
  if st.buffer.isEmpty then st
  else scheduleFlushBuf { st with buffer := [] } st.buffer

/-- Feeding a list of records through `_transform` one at a time. -/
def runTransform {R : Type} (batchSize : Nat) (st : UploaderBuffer R) :
    List R → UploaderBuffer R
  | [] => st
  | r :: rs => runTransform batchSize (transformStep batchSize st r).1 rs

/-- The number of batches dispatched when `records` are all accepted and
the transform is then drained. -/
def dispatchedBatchCount {R : Type} (batchSize : Nat) (records : List R) :
    Nat :=
  (flushStep (runTransform batchSize (initialUploaderBuffer R) records)).dispatched.length

/-! Section: C2: batch count equals ceil(N / batchSize) -/

/-- Behaviour of `_transform` when the pushed chunk fills the buffer to `batchSize`:
the buffer is cut and dispatched. -/
lemma transformStep_full {R : Type} (batchSize : Nat) (st : UploaderBuffer R)
    (chunk : R) (h : batchSize ≤ st.buffer.length + 1) :
    (transformStep batchSize st chunk).1
      = { st with
          buffer := []
          dispatched := st.dispatched ++ [st.buffer ++ [chunk]] } := by
  unfold transformStep scheduleFlushBuf
  dsimp only
  rw [if_pos (by simpa using h), if_neg (by simp)]

/-- Behaviour of `_transform` when the buffer stays under `batchSize`: the chunk is
only appended. -/
lemma transformStep_underfill {R : Type} (batchSize : Nat)
    (st : UploaderBuffer R) (chunk : R)
    (h : ¬ batchSize ≤ st.buffer.length + 1) :
    (transformStep batchSize st chunk).1
      = { st with buffer := st.buffer ++ [chunk] } := by
  unfold transformStep
  dsimp only
  rw [if_neg (by simpa using h)]

/-- Running invariant of batch formation: starting from a buffer shorter
than `batchSize`, after accepting `rs` the transform has dispatched
`(buffer + accepted) / batchSize` additional batches and retains
`(buffer + accepted) % batchSize` records. -/
lemma runTransform_count {R : Type} (batchSize : Nat)
    (hbs : 1 ≤ batchSize) (rs : List R) :
    ∀ st : UploaderBuffer R, st.buffer.length < batchSize →
      (runTransform batchSize st rs).dispatched.length
          = st.dispatched.length + (st.buffer.length + rs.length) / batchSize
        ∧ (runTransform batchSize st rs).buffer.length
          = (st.buffer.length + rs.length) % batchSize := by
  induction rs with
  | nil =>
    intro st hlt
    simp [runTransform, Nat.mod_eq_of_lt hlt, Nat.div_eq_of_lt hlt]
  | cons r rs ih =>
    intro st hlt
    by_cases hfull : batchSize ≤ st.buffer.length + 1
    · have hstep := transformStep_full batchSize st r hfull
      have h0 : (0 : Nat) < batchSize := hbs
      obtain ⟨ih1, ih2⟩ :=
        ih { st with
              buffer := []
              dispatched := st.dispatched ++ [st.buffer ++ [r]] } h0
      simp only [List.length_nil, List.length_append, List.length_cons,
        Nat.zero_add] at ih1 ih2
      rw [runTransform, hstep]
      have harith : st.buffer.length + (rs.length + 1)
          = rs.length + batchSize := by omega
      constructor
      · rw [ih1, List.length_cons, harith, Nat.add_div_right _ h0]
        omega
      · rw [ih2, List.length_cons, harith, Nat.add_mod_right]
    · have hstep := transformStep_underfill batchSize st r hfull
      obtain ⟨ih1, ih2⟩ :=
        ih { st with buffer := st.buffer ++ [r] } (by simp; omega)
      simp only [List.length_append, List.length_cons, List.length_nil,
        Nat.zero_add] at ih1 ih2
      rw [runTransform, hstep]
      have harith : st.buffer.length + 1 + rs.length
          = st.buffer.length + (rs.length + 1) := by omega
      constructor
      · rw [ih1, harith, List.length_cons]
      · rw [ih2, harith, List.length_cons]

/-- Ceiling division, spelled out: `(N + b - 1) / b` splits into the whole
batches plus one final partial batch when the remainder is non-zero. -/
lemma ceil_div_eq_div_add_ite (N b : Nat) (hb : 1 ≤ b) :
    (N + b - 1) / b = N / b + if N % b = 0 then 0 else 1 := by
  rcases Nat.eq_zero_or_pos (N % b) with hr | hr
  · obtain ⟨q, rfl⟩ := (Nat.dvd_iff_mod_eq_zero ..).mpr hr
    have h1 : b * q + b - 1 = b * q + (b - 1) := by omega
    rw [if_pos hr, h1, Nat.mul_add_div hb, Nat.mul_div_cancel_left _ hb,
      Nat.div_eq_of_lt (show b - 1 < b by omega)]
  · have hrb : N % b < b := Nat.mod_lt _ hb
    have hsplit : N + b - 1 = b * (N / b) + ((N % b - 1) + b) := by
      have := Nat.div_add_mod N b
      omega
    rw [if_neg (by omega), hsplit, Nat.mul_add_div hb,
      Nat.add_div_right _ hb,
      Nat.div_eq_of_lt (show N % b - 1 < b by omega), Nat.zero_add]

/-- C2: for every list of records fully accepted by `_transform` and then
drained by `_flush`, with `batchSize ≥ 1`, the number of dispatched
batches is `⌈N / batchSize⌉ = (N + batchSize - 1) / batchSize` where `N`
is the number of records (empty batches are never dispatched). -/
theorem dispatchedBatchCount_eq_ceil {R : Type} (batchSize : Nat)
    (records : List R) (hbs : 1 ≤ batchSize) :
    dispatchedBatchCount batchSize records
      = (records.length + batchSize - 1) / batchSize := by
  obtain ⟨h1, h2⟩ :=
    runTransform_count batchSize hbs records (initialUploaderBuffer R) hbs
  have h1' : (runTransform batchSize (initialUploaderBuffer R) records).dispatched.length
      = records.length / batchSize := by
    simpa [initialUploaderBuffer] using h1
  have h2' : (runTransform batchSize (initialUploaderBuffer R) records).buffer.length
      = records.length % batchSize := by
    simpa [initialUploaderBuffer] using h2
  unfold dispatchedBatchCount flushStep scheduleFlushBuf
  rw [ceil_div_eq_div_add_ite _ _ hbs]
  by_cases hempty : (runTransform batchSize (initialUploaderBuffer R) records).buffer.isEmpty
  · rw [if_pos hempty]
    have h0 : records.length % batchSize = 0 := by
      rw [← h2']
      simp [List.isEmpty_iff] at hempty
      simp [hempty]
    rw [h1', h0]
    simp
  · rw [if_neg hempty, if_neg hempty]
    have h0 : records.length % batchSize ≠ 0 := by
      rw [← h2']
      simp [List.isEmpty_iff] at hempty
      simpa using hempty
    rw [if_neg h0]
    simp [h1']

/-- Witness for C2: 5 records with `batchSize = 2` dispatch 3 batches. -/
theorem dispatchedBatchCount_eq_ceil_witness :
    dispatchedBatchCount 2 [10, 20, 30, 40, 50]
      = (([10, 20, 30, 40, 50] : List Nat).length + 2 - 1) / 2 :=
  dispatchedBatchCount_eq_ceil 2 [10, 20, 30, 40, 50] (by decide)

/-! Section: C4: submitting after a latched terminal failure -/

/-- C4 counterexample: with `batchSize = 2`, an empty buffer and the
failure `"boom"` already latched, submitting the record `7` stores it in
the internal buffer and the callback reports no error — contradicting the
claim that the record is not accepted and that the caller receives the
latched failure immediately. -/
theorem transformStep_after_failure_counterexample :
    (transformStep 2 (⟨[], [], some "boom"⟩ : UploaderBuffer Nat) 7).1.buffer
        = [7]
    ∧ (transformStep 2 (⟨[], [], some "boom"⟩ : UploaderBuffer Nat) 7).2
        = none
    ∧ ¬ ((transformStep 2 (⟨[], [], some "boom"⟩ : UploaderBuffer Nat) 7).1.buffer
          = []
        ∧ (transformStep 2 (⟨[], [], some "boom"⟩ : UploaderBuffer Nat) 7).2
          = some "boom") := by
  refine ⟨rfl, rfl, ?_⟩
  intro h
  have h1 : ([7] : List Nat) = [] := h.1
  simp at h1

/-- The conclusion of the amended claim C4 at given arguments: after a
terminal failure has been latched, a submitted record is still appended
to the buffer; the latched failure reaches the caller only when the
appended record completes a batch of `batchSize` records — and that batch
is still dispatched — while records that leave the buffer under
`batchSize` are accepted with no error reported. -/
def SubmitAfterFailure {R : Type} (batchSize : Nat) (st : UploaderBuffer R)
    (chunk : R) (e : String) : Prop :=
  (transformStep batchSize st chunk).1.buffer
      = (if batchSize ≤ st.buffer.length + 1 then [] else st.buffer ++ [chunk])
    ∧ (transformStep batchSize st chunk).1.dispatched
      = (if batchSize ≤ st.buffer.length + 1
          then st.dispatched ++ [st.buffer ++ [chunk]] else st.dispatched)
    ∧ (transformStep batchSize st chunk).2
      = (if batchSize ≤ st.buffer.length + 1 then some e else none)

/-- C4 amended: `_transform` pushes the record onto the buffer
unconditionally even when a terminal failure is latched; the latched
failure is delivered to the caller only when the pushed record fills a
batch (which is still dispatched), and otherwise the callback reports no
error. -/
theorem transformStep_after_failure {R : Type} (batchSize : Nat)
    (st : UploaderBuffer R) (chunk : R) (e : String)
    (h : st.flushError = some e) :
    SubmitAfterFailure batchSize st chunk e := by
  unfold SubmitAfterFailure
  by_cases hfull : batchSize ≤ st.buffer.length + 1
  · rw [transformStep_full batchSize st chunk hfull]
    have h2 : (transformStep batchSize st chunk).2 = st.flushError := by
      unfold transformStep
      dsimp only
      rw [if_pos (by simpa using hfull)]
    refine ⟨?_, ?_, ?_⟩
    · rw [if_pos hfull]
    · rw [if_pos hfull]
    · rw [h2, h, if_pos hfull]
  · rw [transformStep_underfill batchSize st chunk hfull]
    have h2 : (transformStep batchSize st chunk).2 = none := by
      unfold transformStep
      dsimp only
      rw [if_neg (by simpa using hfull)]
    refine ⟨?_, ?_, ?_⟩
    · rw [if_neg hfull]
    · rw [if_neg hfull]
    · rw [h2, if_neg hfull]

/-- Witness for the amended C4 at a concrete input. -/
theorem transformStep_after_failure_witness :
    SubmitAfterFailure 2 (⟨[], [], some "boom"⟩ : UploaderBuffer Nat) 7
      "boom" :=
  transformStep_after_failure 2 ⟨[], [], some "boom"⟩ 7 "boom" rfl

/-! Section: Serialization into the bulk wire format (`serializeNdjsonBatch`) -/

/-- The action-descriptor line for one record:
`JSON.stringify({ index: { _index: indexName } })` — the JSON object
literal naming the target index (braces written with escapes). -/
def actionLine (indexName : List Char) : List Char :=
  "\x7b\"index\":\x7b\"_index\":\"".data ++ indexName ++ "\"\x7d\x7d".data

/-- The line list built by the loop of `serializeNdjsonBatch`
(lines 260-264): for each document, in batch order, the action-descriptor
line followed by the document's encoded form. -/
def ndjsonLines {R : Type} (encode : R → List Char) (indexName : List Char)
    (batch : List R) : List (List Char) :=
  batch.flatMap (fun doc => [actionLine indexName, encode doc])

/-- Model of `serializeNdjsonBatch` (lines 259-266): `lines.join("\n") + "\n"`. -/
def serializeNdjsonBatch {R : Type} (encode : R → List Char)
    (indexName : List Char) (batch : List R) : List Char :=
  List.intercalate ['\n'] (ndjsonLines encode indexName batch) ++ ['\n']

/-- Splitting a character sequence at newline characters (the separator
convention of the wire format: a trailing newline yields a final empty
segment). -/
def splitNl : List Char → List (List Char)
  | [] => [[]]
  | c :: rest =>
    if c = '\n' then [] :: splitNl rest
    else
      match splitNl rest with
      | [] => [[c]]
      | h :: t => (c :: h) :: t

/-- Splitting distributes over a newline-free prefix followed by a
newline. -/
lemma splitNl_append_newline (s t : List Char) (hs : '\n' ∉ s) :
    splitNl (s ++ '\n' :: t) = s :: splitNl t := by
  induction s with
  | nil => simp [splitNl]
  | cons c s ih =>
    have hc : c ≠ '\n' := fun h => hs (h ▸ List.mem_cons_self c s)
    have hs' : '\n' ∉ s := fun h => hs (List.mem_cons_of_mem _ h)
    rw [List.cons_append, splitNl, if_neg hc, ih hs']

/-- Splitting inverts joining newline-free pieces with newline separators
and a trailing newline. -/
lemma splitNl_intercalate (pieces : List (List Char)) (hne : pieces ≠ [])
    (h : ∀ p ∈ pieces, '\n' ∉ p) :
    splitNl (List.intercalate ['\n'] pieces ++ ['\n']) = pieces ++ [[]] := by
  induction pieces with
  | nil => cases hne rfl
  | cons p ps ih =>
    cases ps with
    | nil =>
      rw [show List.intercalate ['\n'] [p] = p by simp [List.intercalate]]
      rw [show p ++ ['\n'] = p ++ '\n' :: [] from rfl]
      rw [splitNl_append_newline p [] (h p (List.mem_cons_self p []))]
      rfl
    | cons q ps' =>
      rw [show List.intercalate ['\n'] (p :: q :: ps')
          = p ++ ['\n'] ++ List.intercalate ['\n'] (q :: ps') by
        simp [List.intercalate, List.intersperse]]
      rw [List.append_assoc, List.append_assoc]
      rw [show (['\n'] : List Char)
            ++ (List.intercalate ['\n'] (q :: ps') ++ ['\n'])
          = '\n' :: (List.intercalate ['\n'] (q :: ps') ++ ['\n']) from rfl]
      rw [splitNl_append_newline p _ (h p (List.mem_cons_self p _))]
      rw [ih (by simp) (fun x hx => h x (List.mem_cons_of_mem _ hx))]
      rfl

/-- The action line contains no newline when the index name contains
none. -/
lemma newline_not_mem_actionLine (indexName : List Char)
    (h : '\n' ∉ indexName) : '\n' ∉ actionLine indexName := by
  unfold actionLine
  intro hmem
  rcases List.mem_append.mp hmem with h1 | h2
  · rcases List.mem_append.mp h1 with h3 | h4
    · exact absurd h3 (by decide)
    · exact h h4
  · exact absurd h2 (by decide)

/-- The serialized line list has exactly two lines per record. -/
lemma ndjsonLines_length {R : Type} (encode : R → List Char)
    (indexName : List Char) (batch : List R) :
    (ndjsonLines encode indexName batch).length = 2 * batch.length := by
  induction batch with
  | nil => rfl
  | cons d ds ih =>
    unfold ndjsonLines at ih ⊢
    rw [List.flatMap_cons, List.length_append, ih]
    simp [List.length_cons]
    omega

/-- The conclusion of claim C5 at given arguments: splitting the
serialized batch at newlines yields, in batch order, the action line and
the encoded document for each record, followed by one final empty segment
(the trailing newline); there are exactly `2 n` content lines, so the
split has `2 n + 1` segments. -/
def NdjsonWireFormat {R : Type} (encode : R → List Char)
    (indexName : List Char) (batch : List R) : Prop :=
  splitNl (serializeNdjsonBatch encode indexName batch)
      = ndjsonLines encode indexName batch ++ [[]]
    ∧ (ndjsonLines encode indexName batch).length = 2 * batch.length
    ∧ (splitNl (serializeNdjsonBatch encode indexName batch)).length
      = 2 * batch.length + 1

/-- C5: for every non-empty batch of `n` records whose encoded forms and
index name are newline-free, serialization produces exactly `2 n`
newline-separated lines followed by one trailing newline, alternating
action-descriptor lines (naming the configured index) with the records'
encoded forms in batch order. -/
theorem serializeNdjsonBatch_wire_format {R : Type} (encode : R → List Char)
    (indexName : List Char) (batch : List R) (hbatch : batch ≠ [])
    (hidx : '\n' ∉ indexName)
    (hdocs : ∀ doc ∈ batch, '\n' ∉ encode doc) :
    NdjsonWireFormat encode indexName batch := by
  have hpieces : ∀ p ∈ ndjsonLines encode indexName batch, '\n' ∉ p := by
    intro p hp
    rcases List.mem_flatMap.mp hp with ⟨doc, hdoc, hpin⟩
    simp only [List.mem_cons, List.not_mem_nil, or_false] at hpin
    rcases hpin with h | h
    · exact h ▸ newline_not_mem_actionLine indexName hidx
    · exact h ▸ hdocs doc hdoc
  have hne : ndjsonLines encode indexName batch ≠ [] := by
    intro h
    have := ndjsonLines_length encode indexName batch
    rw [h] at this
    cases batch with
    | nil => exact hbatch rfl
    | cons d ds => simp at this
  have hsplit := splitNl_intercalate _ hne hpieces
  refine ⟨hsplit, ndjsonLines_length .., ?_⟩
  rw [show serializeNdjsonBatch encode indexName batch
      = List.intercalate ['\n'] (ndjsonLines encode indexName batch)
        ++ ['\n'] from rfl, hsplit]
  rw [List.length_append, ndjsonLines_length]
  rfl

/-- Witness for C5: a concrete two-record batch splits into 4 content
lines plus the trailing empty segment. -/
theorem serializeNdjsonBatch_wire_format_witness :
    NdjsonWireFormat (fun _ : Nat => ['x']) "logs-test".data [0, 1] :=
  serializeNdjsonBatch_wire_format (fun _ : Nat => ['x']) "logs-test".data
    [0, 1] (by simp) (by decide) (by decide)

/-! Section: C6: error attribution by type matching (`sendBatch` lines 181-209) -/

/-- The predicate of the `findIndex` call at lines 182-186: an item
carrying an error whose type equals the reported error's type. -/
def attributionPred (t : String) (it : BulkItem) : Bool :=
  match it.error with
  | some e => e.type == t
  | none => false

/-- Computation of `itemIndex`/`docIndex` in the attribution loop: the index of the first
response item whose error type matches; when no item matches
(`itemIndex = -1`), the position `idx` of the error within the filtered
error list is used instead. -/
def attributedIndex (items : List BulkItem) (errorItem : BulkError)
    (idx : Nat) : Nat :=
  (items.findIdx? (attributionPred errorItem.type)).getD idx

/-- Computation of `failedDoc` in the attribution loop: the record of the batch at
`docIndex`, or none when `docIndex` is out of range. -/
def attributedDoc {R : Type} (batch : List R) (items : List BulkItem)
    (errorItem : BulkError) (idx : Nat) : Option R :=
  let docIndex := attributedIndex items errorItem idx
  if docIndex < batch.length then batch[docIndex]? else none

/-- A bulk response whose second and third items fail with the same error
type. -/
def exItems : List BulkItem :=
  [⟨none⟩,
   ⟨some ⟨"mapper_parsing_exception", "first failure"⟩⟩,
   ⟨some ⟨"mapper_parsing_exception", "second failure"⟩⟩]

/-- C6: attribution by error-type matching is positionally approximate —
for the batch `[10, 20, 30]` and a response whose items 1 and 2 both fail
with type `mapper_parsing_exception`, the attribution of the second
failure (the error reported for the record `30` at item index 2) locates
the first matching item and logs the record `20` instead. -/
theorem attribution_positionally_approximate :
    bulkErrorItems { errors := true, items := exItems }
        = [⟨some ⟨"mapper_parsing_exception", "first failure"⟩⟩,
           ⟨some ⟨"mapper_parsing_exception", "second failure"⟩⟩]
    ∧ exItems[2]? = some ⟨some ⟨"mapper_parsing_exception", "second failure"⟩⟩
    ∧ attributedDoc [10, 20, 30] exItems
        ⟨"mapper_parsing_exception", "second failure"⟩ 1 = some 20
    ∧ ([10, 20, 30] : List Nat)[2]? = some 30
    ∧ (some 20 : Option Nat) ≠ some 30 := by
  decide

/-! Section: C7: the record source (`LogGeneratorStream`, `generate-logs.ts`) -/

/-- The chunks produced by repeated `_read` calls of `LogGeneratorStream`
(lines 64-82): while `generated < total`, a chunk of
`min(DEFAULT_CHUNK_SIZE, total - generated)` records is generated by
calling `generatorFn` at the successive indices and `generated` advances;
once `generated >= total`, `push(null)` ends the sequence (the empty
chunk list). -/
def generatorChunks {R : Type} (genFn : Nat → R) (total generated : Nat) :
    List (List R) :=
  if _h : total ≤ generated then []
  else
    let chunkSize := min 100 (total - generated)
    ((List.range chunkSize).map (fun i => genFn (generated + i)))
      :: generatorChunks genFn total (generated + chunkSize)
termination_by total - generated
decreasing_by
  simp_wf
  omega

/-- Flattening the chunks produced from position `g` yields the records
generated at the indices `g, g+1, …, total-1` in order. -/
lemma generatorChunks_flatten_aux {R : Type} (genFn : Nat → R) (total : Nat) :
    ∀ n g, total - g ≤ n →
      (generatorChunks genFn total g).flatten
        = (List.range' g (total - g)).map genFn := by
  intro n
  induction n with
  | zero =>
    intro g hle
    have hdone : total ≤ g := by omega
    rw [generatorChunks, dif_pos hdone]
    have : total - g = 0 := by omega
    simp [this]
  | succ n ih =>
    intro g hle
    by_cases hdone : total ≤ g
    · rw [generatorChunks, dif_pos hdone]
      have : total - g = 0 := by omega
      simp [this]
    · rw [generatorChunks, dif_neg hdone]
      have hcs : 1 ≤ min 100 (total - g) := by omega
      rw [List.flatten_cons,
        ih (g + min 100 (total - g)) (by omega)]
      have hsplit := List.range'_append g (min 100 (total - g))
        (total - (g + min 100 (total - g))) 1
      simp only [Nat.one_mul] at hsplit
      have harith : total - (g + min 100 (total - g)) + min 100 (total - g)
          = total - g := by omega
      rw [harith] at hsplit
      rw [← hsplit, List.map_append]
      congr 1
      rw [List.range'_eq_map_range, List.map_map]
      simp [Function.comp]

/-- Every chunk produced is non-empty and holds at most 100 records. -/
lemma generatorChunks_bounds {R : Type} (genFn : Nat → R) (total : Nat) :
    ∀ n g, total - g ≤ n →
      ∀ c ∈ generatorChunks genFn total g, 0 < c.length ∧ c.length ≤ 100 := by
  intro n
  induction n with
  | zero =>
    intro g hle c hc
    rw [generatorChunks, dif_pos (by omega)] at hc
    cases hc
  | succ n ih =>
    intro g hle c hc
    by_cases hdone : total ≤ g
    · rw [generatorChunks, dif_pos hdone] at hc
      cases hc
    · rw [generatorChunks, dif_neg hdone] at hc
      rcases List.mem_cons.mp hc with h | h
      · subst h
        simp only [List.length_map, List.length_range]
        constructor <;> omega
      · exact ih (g + min 100 (total - g)) (by omega) c h

/-- The conclusion of claim C7: the source produces exactly the records
`genFn 0, …, genFn (total-1)` in index order and then ends; a `_read`
at or past the target emits nothing further; every scheduling-tick chunk
holds between 1 and 100 records. -/
def GeneratorContract {R : Type} (genFn : Nat → R) (total : Nat) : Prop :=
  (generatorChunks genFn total 0).flatten = (List.range total).map genFn
    ∧ generatorChunks genFn total total = []
    ∧ ∀ c ∈ generatorChunks genFn total 0, 0 < c.length ∧ c.length ≤ 100

/-- C7: for every target count and generation function, the record source
produces exactly `total` records, generated at the ascending indices
`0 … total-1` and emitted in that order, in chunks of at most 100 per
scheduling tick, and then signals end-of-sequence. -/
theorem generator_stream_contract {R : Type} (genFn : Nat → R)
    (total : Nat) : GeneratorContract genFn total := by
  refine ⟨?_, ?_, ?_⟩
  · have h := generatorChunks_flatten_aux genFn total total 0 (by omega)
    rw [h, Nat.sub_zero, ← List.range_eq_range']
  · rw [generatorChunks, dif_pos le_rfl]
  · exact generatorChunks_bounds genFn total total 0 (by omega)

/-- Witness for C7 at a concrete generation function and count. -/
theorem generator_stream_contract_witness :
    GeneratorContract (fun i => i) 205 :=
  generator_stream_contract (fun i => i) 205

/-! Section: Metrics collector (`log-metrics-collector.ts`)

The numeric trackers start from the sentinels
`Number.POSITIVE_INFINITY` / `NEGATIVE_INFINITY`; these are modelled as
`none`, so `Math.min`/`Math.max` against the sentinel yields the observed
value. -/

/-- Model of `Math.min` with a running minimum that starts at `+Infinity`. -/
def jsMinOpt (cur : Option ℚ) (x : ℚ) : Option ℚ :=
  match cur with
  | none => some x
  | some m => some (min m x)

/-- Model of `Math.max` with a running maximum that starts at `-Infinity`. -/
def jsMaxOpt (cur : Option ℚ) (x : ℚ) : Option ℚ :=
  match cur with
  | none => some x
  | some m => some (max m x)

/-- The numeric fields of one record inspected by `_transform`
(`chunk.metrics.response_time_ms`, `cpu_usage`, `memory_mb`). -/
structure LogMetricsInput where
  response_time_ms : ℚ
  cpu_usage : ℚ
  memory_mb : ℚ
deriving DecidableEq

/-- The response-time tracker: the retained value list plus running
min/max/total (lines 71-76). -/
structure ResponseTimeTracker where
  values : List ℚ
  min : Option ℚ
  max : Option ℚ
  total : ℚ
deriving DecidableEq

/-- A plain numeric tracker: running min/max/total (lines 38-42). -/
structure NumericTracker where
  min : Option ℚ
  max : Option ℚ
  total : ℚ
deriving DecidableEq

/-- The collector state the numeric claims depend on: the record count and
the three trackers. -/
structure CollectorState where
  total : Nat
  responseTime : ResponseTimeTracker
  cpuUsage : NumericTracker
  memoryMb : NumericTracker
deriving DecidableEq

/-- A fresh `LogMetricsCollector`. -/
def initialCollector : CollectorState :=
  { total := 0
    responseTime := { values := [], min := none, max := none, total := 0 }
    cpuUsage := { min := none, max := none, total := 0 }
    memoryMb := { min := none, max := none, total := 0 } }

/-- Model of `_transform` (lines 94-140) restricted to the numeric trackers: the
count is incremented, the response time is appended to the retained list
and folded into min/max/total, and the cpu and memory trackers are
updated. -/
def observeLog (st : CollectorState) (m : LogMetricsInput) : CollectorState :=
  { total := st.total + 1
    responseTime :=
      { values := st.responseTime.values ++ [m.response_time_ms]
        total := st.responseTime.total + m.response_time_ms
        min := jsMinOpt st.responseTime.min m.response_time_ms
        max := jsMaxOpt st.responseTime.max m.response_time_ms }
    cpuUsage :=
      { total := st.cpuUsage.total + m.cpu_usage
        min := jsMinOpt st.cpuUsage.min m.cpu_usage
        max := jsMaxOpt st.cpuUsage.max m.cpu_usage }
    memoryMb :=
      { total := st.memoryMb.total + m.memory_mb
        min := jsMinOpt st.memoryMb.min m.memory_mb
        max := jsMaxOpt st.memoryMb.max m.memory_mb } }

/-- Observing a list of records in order. -/
def observeAll (rs : List LogMetricsInput) : CollectorState :=
  rs.foldl observeLog initialCollector

/-- Model of `Number.toFixed(2)` followed by `parseFloat`: rounding to two decimal
places, ties toward the larger value as the ECMAScript `toFixed`
specifies (`⌊x + 1/2⌋` is exactly that rounding of `x`). -/
def roundTo2 (q : ℚ) : ℚ :=
  ((⌊q * 100 + 1 / 2⌋ : ℤ) : ℚ) / 100

/-- A min/max/avg snapshot block. -/
structure StatSnapshot where
  min : ℚ
  max : ℚ
  avg : ℚ
deriving DecidableEq

/-- The response-time snapshot block, with the p95 value. -/
structure ResponseTimeSnapshot where
  min : ℚ
  max : ℚ
  avg : ℚ
  p95 : ℚ
deriving DecidableEq

/-- The numeric part of `LogMetricsSnapshot`. -/
structure SnapshotModel where
  totalGenerated : Nat
  responseTime : ResponseTimeSnapshot
  cpuUsage : StatSnapshot
  memoryMb : StatSnapshot
deriving DecidableEq

/-- Model of `getSnapshot` (lines 142-206) restricted to the numeric fields:
averages guard against a zero count; the retained response times are
sorted ascending and indexed at `floor(n * 0.95)` clamped to the last
index (`0.95 = 19/20`); infinite sentinels are reported as 0; the cpu
min/max and every average pass through `toFixed(2)`. -/
def getSnapshotModel (st : CollectorState) : SnapshotModel :=
  let avgResponseTime :=
    if 0 < st.total then st.responseTime.total / (st.total : ℚ) else 0
  let avgCpu := if 0 < st.total then st.cpuUsage.total / (st.total : ℚ) else 0
  let avgMemory :=
    if 0 < st.total then st.memoryMb.total / (st.total : ℚ) else 0
  let sortedResponseTimes :=
    List.insertionSort (· ≤ ·) st.responseTime.values
  let n := sortedResponseTimes.length
  let p95Index := if n = 0 then 0 else (19 * n) / 20
  let p95 :=
    if n = 0 then 0
    else sortedResponseTimes.getD (min p95Index (n - 1)) 0
  { totalGenerated := st.total
    responseTime :=
      { min := (st.responseTime.min.getD 0)
        max := (st.responseTime.max.getD 0)
        avg := roundTo2 avgResponseTime
        p95 := p95 }
    cpuUsage :=
      { min :=
          match st.cpuUsage.min with
          | none => 0
          | some v => roundTo2 v
        max :=
          match st.cpuUsage.max with
          | none => 0
          | some v => roundTo2 v
        avg := roundTo2 avgCpu }
    memoryMb :=
      { min := (st.memoryMb.min.getD 0)
        max := (st.memoryMb.max.getD 0)
        avg := roundTo2 avgMemory } }

/-! Section: C8: p95 and the concrete avg/max/min scenario -/

/-- Observing records appends their response times, in order, to the
retained value list. -/
lemma foldl_observeLog_values (rs : List LogMetricsInput) :
    ∀ st, (rs.foldl observeLog st).responseTime.values
        = st.responseTime.values ++ rs.map (fun r => r.response_time_ms) := by
  induction rs with
  | nil => intro st; simp
  | cons r rs ih =>
    intro st
    rw [List.foldl_cons, ih]
    simp [observeLog]

/-- The p95 field of the snapshot, written against the sorted retained
list. -/
lemma getSnapshotModel_p95 (st : CollectorState)
    (h : st.responseTime.values ≠ []) :
    (getSnapshotModel st).responseTime.p95
      = (List.insertionSort (· ≤ ·) st.responseTime.values).getD
          (min ((19 * st.responseTime.values.length) / 20)
            (st.responseTime.values.length - 1)) 0 := by
  have hn : st.responseTime.values.length ≠ 0 := by
    simpa [List.length_eq_zero] using h
  unfold getSnapshotModel
  dsimp only
  rw [List.length_insertionSort, if_neg hn, if_neg hn]

/-- The three-record scenario of the spec: response times 200, 600, 400. -/
def exObservations : List LogMetricsInput :=
  [⟨200, 0, 0⟩, ⟨600, 0, 0⟩, ⟨400, 0, 0⟩]

/-- C8: for every non-empty observation list of length `n`, the reported
p95 is the element at index `min(floor(n * 0.95), n - 1)` of any
ascending-sorted rearrangement of the observed response times; for an
empty list the reported p95 is 0; and for the observations 200, 600, 400
the snapshot reports avg 400, max 600 and min 200. -/
theorem snapshot_p95_and_scenario :
    (∀ (rs : List LogMetricsInput) (sortedL : List ℚ),
        rs ≠ [] →
        sortedL.Perm (rs.map (fun r => r.response_time_ms)) →
        sortedL.Sorted (· ≤ ·) →
        (getSnapshotModel (observeAll rs)).responseTime.p95
          = sortedL.getD (min ((19 * rs.length) / 20) (rs.length - 1)) 0)
    ∧ (getSnapshotModel (observeAll [])).responseTime.p95 = 0
    ∧ (getSnapshotModel (observeAll exObservations)).responseTime.avg = 400
    ∧ (getSnapshotModel (observeAll exObservations)).responseTime.max = 600
    ∧ (getSnapshotModel (observeAll exObservations)).responseTime.min
      = 200 := by
  refine ⟨?_, rfl, ?_, ?_, ?_⟩
  · intro rs sortedL hne hperm hsort
    have hvals : (observeAll rs).responseTime.values
        = rs.map (fun r => r.response_time_ms) := by
      have h := foldl_observeLog_values rs initialCollector
      simpa [observeAll, initialCollector] using h
    have hvne : (observeAll rs).responseTime.values ≠ [] := by
      rw [hvals]
      intro hmap
      rw [List.map_eq_nil_iff] at hmap
      exact hne hmap
    rw [getSnapshotModel_p95 _ hvne, hvals, List.length_map]
    have hsl : sortedL
        = List.insertionSort (· ≤ ·) (rs.map fun r => r.response_time_ms) :=
      List.eq_of_perm_of_sorted
        (hperm.trans (List.perm_insertionSort _ _).symm) hsort
        (List.sorted_insertionSort _ _)
    rw [← hsl]
  · norm_num [exObservations, observeAll, observeLog, initialCollector,
      getSnapshotModel, jsMinOpt, jsMaxOpt, roundTo2]
  · norm_num [exObservations, observeAll, observeLog, initialCollector,
      getSnapshotModel, jsMinOpt, jsMaxOpt]
  · norm_num [exObservations, observeAll, observeLog, initialCollector,
      getSnapshotModel, jsMinOpt, jsMaxOpt]

/-- Witness for C8's quantified part: for the three-record scenario the
sorted list is `[200, 400, 600]` and the p95 is its element at index
`min(floor(3 * 0.95), 2) = 2`. -/
theorem snapshot_p95_and_scenario_witness :
    (getSnapshotModel (observeAll exObservations)).responseTime.p95
      = ([200, 400, 600] : List ℚ).getD
          (min ((19 * exObservations.length) / 20)
            (exObservations.length - 1)) 0 :=
  snapshot_p95_and_scenario.1 exObservations [200, 400, 600]
    (by simp [exObservations])
    (by
      show ([200, 400, 600] : List ℚ).Perm [200, 600, 400]
      exact List.Perm.cons 200 (List.Perm.swap 600 400 []))
    (by norm_num [List.sorted_cons])

/-! Section: C9: progress reporter throttling (`progress-tracker.ts`) -/

/-- The status lines emitted by `ProgressTracker._transform` over a
sequence of event arrival times (`Date.now()` values, in ms): a line is
printed exactly when `now - lastUpdate > 2000` (lines 25-42), and then
`lastUpdate` is set to `now`.  `lastUpdate` starts at the construction
time. -/
def emittedTimes (lastUpdate : Int) : List Int → List Int
  | [] => []
  | t :: rest =>
    if 2000 < t - lastUpdate then t :: emittedTimes t rest
    else emittedTimes lastUpdate rest

/-- C9 counterexample: the tracker is constructed at time 0 and an event
arrives at time 2000 — two full seconds have elapsed (`2000 - 0 ≥ 2000`),
yet no status line is emitted, because the code requires strictly more
than 2000 ms.  This refutes the claim that an event arriving once at
least 2 seconds have elapsed is emitted. -/
theorem progress_throttle_counterexample :
    emittedTimes 0 [2000] = [] ∧ (2000 : Int) - 0 ≥ 2000 := by
  decide

/-- C9 amended: a status line is emitted on an event exactly when strictly
more than 2000 ms have elapsed since the previous emission (or since
construction, for the first); consequently every emitted line is more
than 2 seconds after the previous one and after construction. -/
theorem progress_throttle_amended (lastUpdate : Int) (events : List Int) :
    List.Chain (fun a b => 2000 < b - a) lastUpdate
      (emittedTimes lastUpdate events)
    ∧ ∀ (s t : Int) (rest : List Int),
        emittedTimes s (t :: rest)
          = if 2000 < t - s then t :: emittedTimes t rest
            else emittedTimes s rest := by
  constructor
  · induction events generalizing lastUpdate with
    | nil => exact List.Chain.nil
    | cons t rest ih =>
      simp only [emittedTimes]
      split_ifs with h
      · exact List.Chain.cons h (ih t)
      · exact ih lastUpdate
  · intro s t rest
    rfl

/-! Section: C10: zero-state defaults -/

/-- The value returned by `getMetrics` (`bulk-insert.ts` lines 238-257):
the cumulative counters plus the two averages, each guarded against a
zero batch count. -/
structure BulkMetricsReport where
  batches : Nat
  totalInserted : Int
  failedDocuments : Int
  averageBatchSize : ℚ
  totalDurationMs : ℚ
  averageBatchDurationMs : ℚ
  maxBatchDurationMs : ℚ
deriving DecidableEq

/-- Model of `getMetrics`: `averageBatchSize` and `averageBatchDurationMs` are 0
when no batch has been sent, otherwise the corresponding quotients. -/
def getMetricsModel (m : BulkMetricsState) : BulkMetricsReport :=
  { batches := m.batches
    totalInserted := m.totalInserted
    failedDocuments := m.failedDocuments
    averageBatchSize :=
      if m.batches = 0 then 0 else (m.totalInserted : ℚ) / (m.batches : ℚ)
    totalDurationMs := m.totalDurationMs
    averageBatchDurationMs :=
      if m.batches = 0 then 0 else m.totalDurationMs / (m.batches : ℚ)
    maxBatchDurationMs := m.maxBatchDurationMs }

/-- C10: with no records observed, the snapshot reports finite zero
defaults everywhere (never the internal infinite sentinels), and with
zero batches sent the uploader's metrics report zero averages (the
divisions by the batch count are guarded). -/
theorem zero_state_defaults :
    getSnapshotModel initialCollector
        = { totalGenerated := 0
            responseTime := { min := 0, max := 0, avg := 0, p95 := 0 }
            cpuUsage := { min := 0, max := 0, avg := 0 }
            memoryMb := { min := 0, max := 0, avg := 0 } }
    ∧ ∀ m : BulkMetricsState, m.batches = 0 →
        (getMetricsModel m).averageBatchSize = 0
        ∧ (getMetricsModel m).averageBatchDurationMs = 0 := by
  constructor
  · simp only [getSnapshotModel, initialCollector, roundTo2]
    norm_num
  · intro m hm
    constructor <;> simp [getMetricsModel, hm]

/-- Witness for C10's quantified part at the zero-initialised metrics. -/
theorem zero_state_defaults_witness :
    (getMetricsModel initialBulkMetrics).averageBatchSize = 0
    ∧ (getMetricsModel initialBulkMetrics).averageBatchDurationMs = 0 :=
  zero_state_defaults.2 initialBulkMetrics rfl

end LogPipeline
